import Mathlib

/-!
# Verification of the rgcrt garbage-collector runtime core

A shallow embedding of the rgcrt runtime (bump-pointer collector and
safepoint-table builder) together with proofs about its behaviour.

The embedding follows `src/collector.rs`, `src/safepoints.rs` and
`src/lib.rs`:
* the `Collector` struct's `Cell` fields become plain fields of a Lean
  structure, and the heap memory the collector owns is modelled as a byte
  map `Nat → Nat`;
* methods that mutate the collector through `&self` become functions that
  take and return the state;
* Rust panics (including `debug_assert!`, index panics and
  `Option::unwrap` on `None`) become `Except String` errors — they are
  fatal, non-recoverable exits;
* the typed error `GcErr` is kept as a Lean inductive: `GcErr::OOM` is the
  one recoverable error surfaced to callers.
-/

namespace Rgcrt

/-- `GcErr` from `src/lib.rs`: the error taxonomy, currently only an
out-of-memory variant carrying a diagnostic message. -/
inductive GcErr where
  | OOM (msg : String)
  deriving DecidableEq, Repr

/-- The `Collector` struct from `src/collector.rs`.  `hptr`, `hstart` and
`hend` are the `Cell<usize>` bookkeeping fields (addresses as `Nat`);
`collect_next` is the collection-trigger flag.  `mem` models the process
memory the heap region lives in, as a map from byte address to byte
value; the Rust struct reaches that memory through its raw pointers. -/
structure Collector where
  hptr : Nat
  hstart : Nat
  hend : Nat
  collect_next : Bool
  mem : Nat → Nat

/-- `Collector::new`: the uninitialized collector — null heap pointer and
zero bounds, flag clear. -/
def Collector.new : Collector :=
  { hptr := 0, hstart := 0, hend := 0, collect_next := false, mem := fun _ => 0 }

/-- `Collector::collect_next` (the setter method; named with a `_set`
suffix here because the Lean field projection already takes the Rust
method's name): sets the collect-at-next-safepoint flag. -/
def Collector.collect_next_set (c : Collector) : Collector :=
  { c with collect_next := true }

/-- `Collector::should_collect`: reads the collect-at-next-safepoint flag. -/
def Collector.should_collect (c : Collector) : Bool :=
  c.collect_next

/-- `Collector::mk_heap`: records the region `[ptr, ptr + size)` returned
by the platform allocator and resets the bump pointer to its start.  The
address `ptr` chosen by the platform is a parameter; the Rust code aborts
when the platform returns null, so `ptr` models a successful (non-null)
allocation. -/
def Collector.mk_heap (c : Collector) (ptr size : Nat) : Collector :=
  { c with hptr := ptr, hstart := ptr, hend := ptr + size }

/-- `Collector::reclaim`: the collection pass.  In the source it is a
stub — `eprintln!("Collection is no-op: not yet implemented")` — so it
leaves the collector state (including the `collect_next` flag) unchanged. -/
def Collector.reclaim (c : Collector) : Collector :=
  c

/-- `Collector::reserve_block`: the bump-allocation primitive.  Computes
`obj_end = hptr + size`; on `obj_end < hend` advances the bump pointer
and returns the pre-advance pointer, otherwise returns `GcErr::OOM`
leaving the state unchanged. -/
def Collector.reserve_block (c : Collector) (size : Nat) :
    Except GcErr Nat × Collector :=
  let hptr := c.hptr
  let obj_end := hptr + size
  if obj_end < c.hend then
    (Except.ok hptr, { c with hptr := obj_end })
  else
    (Except.error (GcErr.OOM "No free space available"), c)

/-- Byte-wise store of `copy_nonoverlapping`: writes `bytes` at addresses
`[p, p + bytes.length)` of `mem`, leaving every other address unchanged. -/
def writeBytes (mem : Nat → Nat) (p : Nat) (bytes : List Nat) : Nat → Nat :=
  fun a => if p ≤ a ∧ a - p < bytes.length then bytes.getD (a - p) 0 else mem a

/-- Reading `n` bytes back from memory starting at address `p`. -/
def readBytes (mem : Nat → Nat) (p n : Nat) : List Nat :=
  (List.range n).map fun i => mem (p + i)

/-- `Collector::alloc_obj`: the public allocation entry point.  The value
is its byte representation (`object.length = size_of::<T>()`).  Attempts
`reserve_block`; on failure runs one `reclaim` pass and retries once; a
second failure surfaces `GcErr::OOM` to the caller.  On success the
value's bytes are copied into the reserved block. -/
def Collector.alloc_obj (c : Collector) (object : List Nat) :
    Except GcErr Nat × Collector :=
  let obj_size := object.length
  let attempt :=
    match c.reserve_block obj_size with
    | (Except.ok p, c1) => (Except.ok p, c1)
    | (Except.error _, c1) => (c1.reclaim).reserve_block obj_size
  match attempt with
  | (Except.error e, c1) => (Except.error e, c1)
  | (Except.ok p, c1) => (Except.ok p, { c1 with mem := writeBytes c1.mem p object })

/-- `safepoint_poll` from `src/lib.rs`: checks the flag via
`should_collect` and runs `reclaim` only when it is set. -/
def safepoint_poll (c : Collector) : Collector :=
  if c.should_collect then c.reclaim else c

/-- `force_collect` from `src/lib.rs`: unconditionally runs `reclaim`. -/
def force_collect (c : Collector) : Collector :=
  c.reclaim

end Rgcrt

namespace Rgcrt

/-- C1: `reserve_block(size)` succeeds iff `hptr + size < hend` (strict):
on success it returns the pre-advance pointer and advances the bump
pointer to `hptr + size`; on failure it returns an out-of-memory error
and leaves the collector (in particular the bump pointer) unchanged. -/
theorem reserve_block_spec (c : Collector) (size : Nat) :
    (c.hptr + size < c.hend →
      c.reserve_block size =
        (Except.ok c.hptr, { c with hptr := c.hptr + size })) ∧
    (c.hend ≤ c.hptr + size →
      c.reserve_block size =
        (Except.error (GcErr.OOM "No free space available"), c)) := by
  constructor
  · intro h
    simp [Collector.reserve_block, h]
  · intro h
    simp [Collector.reserve_block, Nat.not_lt.mpr h]

/-- Witness for C1: a concrete success (pointer 100, size 8 inside a heap
ending at 200) and a concrete failure (size 150 overshooting the end). -/
theorem reserve_block_spec_witness :
    (Collector.reserve_block
        { hptr := 100, hstart := 100, hend := 200, collect_next := false,
          mem := fun _ => 0 } 8 =
      (Except.ok 100,
        { hptr := 108, hstart := 100, hend := 200, collect_next := false,
          mem := fun _ => 0 })) ∧
    (Collector.reserve_block
        { hptr := 100, hstart := 100, hend := 200, collect_next := false,
          mem := fun _ => 0 } 150 =
      (Except.error (GcErr.OOM "No free space available"),
        { hptr := 100, hstart := 100, hend := 200, collect_next := false,
          mem := fun _ => 0 })) := by
  refine ⟨(reserve_block_spec _ 8).1 (by norm_num),
          (reserve_block_spec _ 150).2 (by norm_num)⟩

end Rgcrt

namespace Rgcrt

/-- C2: when reservation fails, `alloc_obj` runs one (no-op) reclamation,
retries once, and surfaces the typed `GcErr::OOM` to the caller with the
collector unchanged; in particular on a 32-byte heap a 16-byte value
allocates once and the second identical allocation returns OOM. -/
theorem alloc_obj_oom_spec :
    (∀ (c : Collector) (v : List Nat), c.hend ≤ c.hptr + v.length →
      c.alloc_obj v =
        (Except.error (GcErr.OOM "No free space available"), c)) ∧
    (∀ (a : Nat) (v : List Nat), v.length = 16 →
      ((Collector.new.mk_heap a 32).alloc_obj v).1 = Except.ok a ∧
      (((Collector.new.mk_heap a 32).alloc_obj v).2.alloc_obj v).1 =
        Except.error (GcErr.OOM "No free space available")) := by
  have hfail : ∀ (c : Collector) (v : List Nat), c.hend ≤ c.hptr + v.length →
      c.alloc_obj v =
        (Except.error (GcErr.OOM "No free space available"), c) := by
    intro c v h
    simp [Collector.alloc_obj, Collector.reserve_block, Collector.reclaim,
      Nat.not_lt.mpr h]
  refine ⟨hfail, ?_⟩
  intro a v hv
  have h1 : ((Collector.new.mk_heap a 32).alloc_obj v) =
      (Except.ok a,
        { hptr := a + 16, hstart := a, hend := a + 32, collect_next := false,
          mem := writeBytes (fun _ => 0) a v }) := by
    simp [Collector.alloc_obj, Collector.reserve_block, Collector.mk_heap,
      Collector.new, hv]
  refine ⟨by rw [h1], ?_⟩
  rw [h1]
  rw [hfail _ v (by simp [hv])]

/-- Witness for C2: applies the theorem to an out-of-memory collector at
bump pointer 10 with end 10, and to the 32-byte-heap double-allocation
scenario at heap start 1000 with the 16 bytes of `S(1234, 5678)`. -/
theorem alloc_obj_oom_spec_witness :
    (Collector.alloc_obj
        { hptr := 10, hstart := 0, hend := 10, collect_next := false,
          mem := fun _ => 0 } [1, 2] =
      (Except.error (GcErr.OOM "No free space available"),
        { hptr := 10, hstart := 0, hend := 10, collect_next := false,
          mem := fun _ => 0 })) ∧
    (((Collector.new.mk_heap 1000 32).alloc_obj
        [210, 4, 0, 0, 0, 0, 0, 0, 46, 22, 0, 0, 0, 0, 0, 0]).1 =
      Except.ok 1000 ∧
     (((Collector.new.mk_heap 1000 32).alloc_obj
        [210, 4, 0, 0, 0, 0, 0, 0, 46, 22, 0, 0, 0, 0, 0, 0]).2.alloc_obj
        [210, 4, 0, 0, 0, 0, 0, 0, 46, 22, 0, 0, 0, 0, 0, 0]).1 =
      Except.error (GcErr.OOM "No free space available")) := by
  exact ⟨alloc_obj_oom_spec.1 _ [1, 2] (by norm_num),
         alloc_obj_oom_spec.2 1000 _ (by norm_num)⟩

/-- C10 counterpart state: on a freshly constructed collector (no
`mk_heap` call, all bookkeeping zero) every `alloc_obj` returns the
recoverable OOM error and leaves the collector — memory included —
untouched: the reservation check compares against a heap end of 0 and
always fails. -/
theorem alloc_obj_uninitialized (v : List Nat) :
    Collector.new.alloc_obj v =
      (Except.error (GcErr.OOM "No free space available"), Collector.new) := by
  simp [Collector.alloc_obj, Collector.reserve_block, Collector.reclaim,
    Collector.new]

/-- C9 counterexample: setting the flag and polling does NOT leave the
flag clear — `reclaim` is a no-op stub that never clears `collect_next`,
so after `safepoint_poll` on a flagged collector the flag is still set,
contradicting the claim that it is clear afterwards. -/
theorem safepoint_poll_flag_not_cleared :
    (safepoint_poll Collector.new.collect_next_set).collect_next = true := by
  rfl

/-- C9 amended: setting `collect_next` is idempotent; `safepoint_poll`
returns with the collector unchanged when the flag is clear; when the
flag is set it runs `reclaim`, and since `reclaim` is currently a no-op
stub the flag remains set afterwards (it is not cleared). -/
theorem safepoint_poll_spec :
    (∀ c : Collector, c.collect_next_set.collect_next_set = c.collect_next_set) ∧
    (∀ c : Collector, c.collect_next = false → safepoint_poll c = c) ∧
    (∀ c : Collector, c.collect_next = true →
      safepoint_poll c = c.reclaim ∧ (safepoint_poll c).collect_next = true) := by
  refine ⟨fun c => rfl, fun c h => ?_, fun c h => ?_⟩
  · simp [safepoint_poll, Collector.should_collect, h]
  · simp [safepoint_poll, Collector.should_collect, Collector.reclaim, h]

/-- Witness for C9's amended theorem: evaluated on the fresh collector
(flag clear) and on the fresh collector with the flag set. -/
theorem safepoint_poll_spec_witness :
    Collector.new.collect_next_set.collect_next_set =
      Collector.new.collect_next_set ∧
    safepoint_poll Collector.new = Collector.new ∧
    (safepoint_poll Collector.new.collect_next_set =
        Collector.new.collect_next_set.reclaim ∧
      (safepoint_poll Collector.new.collect_next_set).collect_next = true) := by
  exact ⟨safepoint_poll_spec.1 Collector.new,
         safepoint_poll_spec.2.1 Collector.new rfl,
         safepoint_poll_spec.2.2 Collector.new.collect_next_set rfl⟩

end Rgcrt

namespace Rgcrt

/-- A sequence of allocations performed through `alloc_obj`, returning the
list of pointers handed out.  The first failure aborts the sequence with
its error. -/
def allocAll : Collector → List (List Nat) → Except GcErr (List Nat) × Collector
  | c, [] => (Except.ok [], c)
  | c, v :: rest =>
    match c.alloc_obj v with
    | (Except.error e, c1) => (Except.error e, c1)
    | (Except.ok p, c1) =>
      match allocAll c1 rest with
      | (Except.error e, c2) => (Except.error e, c2)
      | (Except.ok ps, c2) => (Except.ok (p :: ps), c2)

theorem alloc_obj_ok (c : Collector) (v : List Nat)
    (h : c.hptr + v.length < c.hend) :
    c.alloc_obj v =
      (Except.ok c.hptr,
        { hptr := c.hptr + v.length, hstart := c.hstart, hend := c.hend,
          collect_next := c.collect_next, mem := writeBytes c.mem c.hptr v }) := by
  simp [Collector.alloc_obj, Collector.reserve_block, h]

theorem writeBytes_below (mem : Nat → Nat) (p : Nat) (bytes : List Nat)
    (a : Nat) (h : a < p) : writeBytes mem p bytes a = mem a := by
  simp only [writeBytes]
  rw [if_neg]
  intro hc
  omega

theorem readBytes_congr (m1 m2 : Nat → Nat) (p n : Nat)
    (h : ∀ a, p ≤ a → a < p + n → m1 a = m2 a) :
    readBytes m1 p n = readBytes m2 p n := by
  unfold readBytes
  apply List.map_congr_left
  intro i hi
  exact h (p + i) (Nat.le_add_right _ _)
    (by have := List.mem_range.mp hi; omega)

theorem readBytes_writeBytes (mem : Nat → Nat) (p : Nat) (bytes : List Nat) :
    readBytes (writeBytes mem p bytes) p bytes.length = bytes := by
  apply List.ext_getElem
  · simp [readBytes]
  · intro i h1 h2
    simp only [readBytes, writeBytes, List.getElem_map, List.getElem_range]
    rw [if_pos ⟨Nat.le_add_right _ _, by omega⟩]
    rw [show p + i - p = i by omega]
    exact List.getD_eq_getElem bytes 0 h2

end Rgcrt

namespace Rgcrt

theorem allocAll_ok (vs : List (List Nat)) :
    ∀ c : Collector, c.hptr + (vs.map List.length).sum < c.hend →
    ∃ ps cf, allocAll c vs = (Except.ok ps, cf) ∧
      cf.hptr = c.hptr + (vs.map List.length).sum ∧
      cf.hend = c.hend ∧
      (∀ a, a < c.hptr → cf.mem a = c.mem a) ∧
      ps.length = vs.length ∧
      (∀ i, i < vs.length →
        c.hptr ≤ ps.getD i 0 ∧
        readBytes cf.mem (ps.getD i 0) ((vs.getD i []).length) = vs.getD i []) := by
  induction vs with
  | nil =>
    intro c h
    exact ⟨[], c, rfl, by simp, rfl, fun a _ => rfl, rfl, fun i hi => absurd hi (by simp)⟩
  | cons v rest ih =>
    intro c h
    have hsum : (List.map List.length (v :: rest)).sum
        = v.length + (List.map List.length rest).sum := by simp
    have hv : c.hptr + v.length < c.hend := by
      rw [hsum] at h; omega
    have halloc := alloc_obj_ok c v hv
    set c1 : Collector :=
      { hptr := c.hptr + v.length, hstart := c.hstart, hend := c.hend,
        collect_next := c.collect_next, mem := writeBytes c.mem c.hptr v } with hc1
    have h1 : c1.hptr + (List.map List.length rest).sum < c1.hend := by
      simp only [hc1]; rw [hsum] at h; omega
    obtain ⟨ps, cf, heq, hhptr, hhend, hlow, hlen, hread⟩ := ih c1 h1
    refine ⟨c.hptr :: ps, cf, ?_, ?_, ?_, ?_, ?_, ?_⟩
    · simp only [allocAll, halloc, heq]
    · simp only [hhptr, hc1, hsum]; omega
    · simpa using hhend
    · intro a ha
      rw [hlow a (by simp only [hc1]; omega)]
      exact writeBytes_below c.mem c.hptr v a ha
    · simpa using hlen
    · intro i hi
      match i with
      | 0 =>
        refine ⟨by simp, ?_⟩
        simp only [List.getD_cons_zero]
        have hframe : readBytes cf.mem c.hptr v.length
            = readBytes c1.mem c.hptr v.length := by
          apply readBytes_congr
          intro a ha1 ha2
          exact hlow a (by simp only [hc1]; omega)
        rw [hframe]
        simpa only [hc1] using readBytes_writeBytes c.mem c.hptr v
      | Nat.succ j =>
        have hj : j < rest.length := by simpa using hi
        obtain ⟨hle, hr⟩ := hread j hj
        refine ⟨?_, ?_⟩
        · simp only [List.getD_cons_succ]
          have : c.hptr ≤ c1.hptr := by simp only [hc1]; omega
          omega
        · simpa only [List.getD_cons_succ] using hr

/-- C3: bump-allocation correctness — for every sequence of allocations
through `alloc_obj` on a collector whose heap was made with
`mk_heap(H)`, if the cumulative size of the allocated values stays
strictly below `H`, every allocation succeeds and reading the bytes back
at each returned pointer reproduces, byte for byte, the value allocated
there. -/
theorem bump_allocation_correct (a H : Nat) (vs : List (List Nat))
    (h : (vs.map List.length).sum < H) :
    ∃ ps cf, allocAll (Collector.new.mk_heap a H) vs = (Except.ok ps, cf) ∧
      ps.length = vs.length ∧
      ∀ i, i < vs.length →
        readBytes cf.mem (ps.getD i 0) ((vs.getD i []).length) = vs.getD i [] := by
  have hc : (Collector.new.mk_heap a H).hptr + (vs.map List.length).sum
      < (Collector.new.mk_heap a H).hend := by
    simp only [Collector.mk_heap, Collector.new]
    omega
  obtain ⟨ps, cf, heq, _, _, _, hlen, hread⟩ := allocAll_ok vs _ hc
  exact ⟨ps, cf, heq, hlen, fun i hi => (hread i hi).2⟩

/-- Witness for C3: two values, of 3 and 2 bytes, on a 1024-byte heap at
address 64 — cumulative size 5 stays strictly below 1024. -/
theorem bump_allocation_correct_witness :
    (([[1, 2, 3], [4, 5]] : List (List Nat)).map List.length).sum < 1024 ∧
    ∃ ps cf,
      allocAll (Collector.new.mk_heap 64 1024) [[1, 2, 3], [4, 5]] =
        (Except.ok ps, cf) ∧
      ps.length = ([[1, 2, 3], [4, 5]] : List (List Nat)).length ∧
      ∀ i, i < ([[1, 2, 3], [4, 5]] : List (List Nat)).length →
        readBytes cf.mem (ps.getD i 0)
            ((([[1, 2, 3], [4, 5]] : List (List Nat)).getD i []).length) =
          ([[1, 2, 3], [4, 5]] : List (List Nat)).getD i [] :=
  ⟨by norm_num, bump_allocation_correct 64 1024 [[1, 2, 3], [4, 5]] (by norm_num)⟩

end Rgcrt

namespace Rgcrt

/-- `LocKind` from the ykstackmaps dependency: the kind of a stack-map
location descriptor (LLVM stack-map format). -/
inductive LocKind where
  | Register
  | Direct
  | Indirect
  | Constant
  | ConstIndex
  deriving DecidableEq, Repr

/-- `LocOffset` from the ykstackmaps dependency: a location's offset
payload — an unsigned 32-bit constant or a signed 32-bit offset. -/
inductive LocOffset where
  | U32 (v : Nat)
  | I32 (v : Int)
  deriving DecidableEq, Repr

/-- A stack-map location: its kind together with its offset payload. -/
structure Loc where
  kind : LocKind
  offset : LocOffset
  deriving DecidableEq, Repr

/-- An `SMRec` stack-map record: the ordered location descriptors of one
instrumented safepoint. -/
structure SMRec where
  locs : List Loc
  deriving DecidableEq, Repr

/-- `SPO` from `src/safepoints.rs`: an offset from the stack pointer,
stored as a `u32`. -/
structure SPO where
  val : Nat
  deriving DecidableEq, Repr

/-- `PtrSlot` from `src/safepoints.rs`: a stack root at a safepoint —
either a base pointer, or a derived (interior) pointer carrying the
stack-pointer offset of its base as well. -/
inductive PtrSlot where
  | Base (o : SPO)
  | Derived (base derived : SPO)
  deriving DecidableEq, Repr

/-- `SafepointRoots` from `src/safepoints.rs`: the root locations for one
safepoint — registers holding roots (always built empty today) and the
stack-resident `PtrSlot`s. -/
structure SafepointRoots where
  registers : List Nat
  stack_offsets : List PtrSlot
  deriving DecidableEq, Repr

/-- The `*o as u32` cast in `as_sp_offset`: two's-complement
reinterpretation of a signed 32-bit value as unsigned. -/
def toU32 (o : Int) : Nat :=
  (o % (2 ^ 32 : Int)).toNat

/-- `as_sp_offset` from `src/safepoints.rs`: converts a location offset
to a stack-pointer-relative `SPO`.  A non-`I32` offset representation is
a fatal format violation (`panic!("Offset must be signed")`). -/
def as_sp_offset (offset : LocOffset) : Except String SPO :=
  match offset with
  | LocOffset.I32 o => Except.ok ⟨toU32 o⟩
  | _ => Except.error "Offset must be signed"

/-- The `while let` pair loop of `gen_safepoint_roots`: consumes the
GC-pointer locations two at a time, dispatching on the base's kind, and
builds the ordered `PtrSlot` list.  An unpaired final location is the
source's `Option::unwrap` panic; an indirect base with a non-indirect
derived partner is the source's `unimplemented!()` panic; a register base
or a base of any other kind is logged and skipped. -/
def procPairs : List Loc → Except String (List PtrSlot)
  | [] => Except.ok []
  | [_] => Except.error "called Option.unwrap on a None value"
  | base :: derived :: rest =>
    match base.kind with
    | LocKind.Register => procPairs rest
    | LocKind.Indirect =>
      match derived.kind with
      | LocKind.Indirect =>
        if base.offset = derived.offset then
          match as_sp_offset base.offset with
          | Except.error e => Except.error e
          | Except.ok o =>
            (procPairs rest).map fun slots => PtrSlot.Base o :: slots
        else
          match as_sp_offset base.offset, as_sp_offset derived.offset with
          | Except.error e, _ => Except.error e
          | _, Except.error e => Except.error e
          | Except.ok b, Except.ok d =>
            (procPairs rest).map fun slots => PtrSlot.Derived b d :: slots
      | _ => Except.error "not implemented"
    | _ => procPairs rest

/-- `gen_safepoint_roots` from `src/safepoints.rs`: decodes one stack-map
record into `SafepointRoots`.  The first two locations must be constants
(`debug_assert_eq!` on the kind discriminants); the third location's
`U32` offset is the de-opt count and that many following locations are
skipped; the remaining locations must pair up evenly (`debug_assert!`)
and are decoded by `procPairs`.  All panics — the debug assertions (the
crate's tests run as debug builds), the `u32` constant match, index and
subtraction overflow, and the loop's panics — are fatal errors. -/
def gen_safepoint_roots (stackmap : SMRec) : Except String SafepointRoots :=
  match stackmap.locs with
  | l0 :: l1 :: l2 :: rest =>
    if l0.kind ≠ LocKind.Constant then
      Except.error "debug assertion failed: locs[0] must be a constant"
    else if l1.kind ≠ LocKind.Constant then
      Except.error "debug assertion failed: locs[1] must be a constant"
    else
      match l2.offset with
      | LocOffset.U32 num_deopts =>
        if num_deopts ≤ rest.length then
          if (rest.length - num_deopts) % 2 = 0 then
            (procPairs (rest.drop num_deopts)).map
              fun offs => { registers := [], stack_offsets := offs }
          else Except.error "debug assertion failed: even GC pointer count"
        else Except.error "attempt to subtract with overflow"
      | _ => Except.error "Constants must be u32"
  | _ => Except.error "index out of bounds"

/-- A parsed per-function stack-map header from the ykstackmaps
dependency: the function's address and how many stack-map records belong
to it. -/
structure StackMapFunc where
  addr : Nat
  record_count : Nat
  deriving DecidableEq, Repr

/-- `HashMap::insert` on the association-list model of the safepoint
table: replaces the value when the key is already present, appends
otherwise. -/
def hmInsert (k : Nat) (v : SafepointRoots) :
    List (Nat × SafepointRoots) → List (Nat × SafepointRoots)
  | [] => [(k, v)]
  | (k', v') :: rest =>
    if k = k' then (k, v) :: rest else (k', v') :: hmInsert k v rest

/-- Key membership in the association-list model of the safepoint table. -/
def hmContains (k : Nat) : List (Nat × SafepointRoots) → Bool
  | [] => false
  | (k', _) :: rest => k == k' || hmContains k rest

/-- The record loop of `gen_safepoint_table`: decodes each stack-map
record taken for one function and inserts its roots under
`ReturnAddress(func.addr())` — the same key for every record of that
function. -/
def insertRecords (addr : Nat) :
    List SMRec → List (Nat × SafepointRoots) →
      Except String (List (Nat × SafepointRoots))
  | [], frames => Except.ok frames
  | r :: rs, frames =>
    match gen_safepoint_roots r with
    | Except.error e => Except.error e
    | Except.ok roots => insertRecords addr rs (hmInsert addr roots frames)

/-- The function loop of `gen_safepoint_table`: each function takes its
`record_count` records off the shared stack-map record stream. -/
def genTableGo :
    List StackMapFunc → List SMRec → List (Nat × SafepointRoots) →
      Except String (List (Nat × SafepointRoots))
  | [], _, frames => Except.ok frames
  | f :: fs, sms, frames =>
    match insertRecords f.addr (sms.take f.record_count) frames with
    | Except.error e => Except.error e
    | Except.ok frames1 => genTableGo fs (sms.drop f.record_count) frames1

/-- `gen_safepoint_table` from `src/safepoints.rs`: builds the safepoint
table from the parsed function headers and the stream of stack-map
records of the binary image. -/
def gen_safepoint_table (funcs : List StackMapFunc) (sms : List SMRec) :
    Except String (List (Nat × SafepointRoots)) :=
  genTableGo funcs sms []

end Rgcrt

namespace Rgcrt

/-- C8: only signed 32-bit (`I32`) offsets are converted into
stack-pointer-relative slots — the conversion is the `u32`
reinterpretation of the signed value — and every other offset
representation is rejected as a fatal format violation. -/
theorem as_sp_offset_spec :
    (∀ o : Int, as_sp_offset (LocOffset.I32 o) = Except.ok ⟨toU32 o⟩) ∧
    (∀ v : Nat, as_sp_offset (LocOffset.U32 v) =
      Except.error "Offset must be signed") :=
  ⟨fun _ => rfl, fun _ => rfl⟩

/-- C6: a `(base, derived)` pair of indirect locations decodes to a
single `Base` slot when the two offsets are numerically identical, and to
a `Derived` slot carrying both offsets when they differ — in either case
followed by whatever the rest of the pair loop produces. -/
theorem base_derived_classification (b d : Int) (rest : List Loc) :
    procPairs (⟨LocKind.Indirect, LocOffset.I32 b⟩ ::
        ⟨LocKind.Indirect, LocOffset.I32 d⟩ :: rest) =
      (procPairs rest).map fun slots =>
        (if b = d then PtrSlot.Base ⟨toU32 b⟩
         else PtrSlot.Derived ⟨toU32 b⟩ ⟨toU32 d⟩) :: slots := by
  by_cases h : b = d
  · subst h
    simp [procPairs, as_sp_offset]
  · simp [procPairs, as_sp_offset, h]

/-- C7: a stack-map record whose GC-pointer location count — what is left
after the two header constants, the de-opt count location and the de-opt
entries themselves — is odd makes decoding fail fatally; it never
completes while silently dropping a root. -/
theorem odd_count_fatal (l0 l1 l2 : Loc) (rest : List Loc) (k : Nat)
    (hk : l2.offset = LocOffset.U32 k)
    (hodd : (rest.length - k) % 2 = 1) :
    ∃ e, gen_safepoint_roots ⟨l0 :: l1 :: l2 :: rest⟩ = Except.error e := by
  have hkle : k ≤ rest.length := by omega
  have hne : ¬ (rest.length - k) % 2 = 0 := by omega
  by_cases h0 : l0.kind = LocKind.Constant
  · by_cases h1 : l1.kind = LocKind.Constant
    · exact ⟨"debug assertion failed: even GC pointer count",
        by simp [gen_safepoint_roots, h0, h1, hk, hkle, hne]⟩
    · exact ⟨"debug assertion failed: locs[1] must be a constant",
        by simp [gen_safepoint_roots, h0, h1]⟩
  · exact ⟨"debug assertion failed: locs[0] must be a constant",
      by simp [gen_safepoint_roots, h0]⟩

/-- Witness for C7: a record with valid constant headers, zero de-opt
entries and a single (unpaired) indirect GC-pointer location — remaining
count 1, odd — is rejected. -/
theorem odd_count_fatal_witness :
    (Loc.offset ⟨LocKind.Constant, LocOffset.U32 0⟩ = LocOffset.U32 0) ∧
    (([(⟨LocKind.Indirect, LocOffset.I32 8⟩ : Loc)].length - 0) % 2 = 1) ∧
    ∃ e, gen_safepoint_roots
        ⟨[⟨LocKind.Constant, LocOffset.U32 0⟩, ⟨LocKind.Constant, LocOffset.U32 0⟩,
          ⟨LocKind.Constant, LocOffset.U32 0⟩, ⟨LocKind.Indirect, LocOffset.I32 8⟩]⟩ =
      Except.error e :=
  ⟨rfl, by decide,
    odd_count_fatal ⟨LocKind.Constant, LocOffset.U32 0⟩
      ⟨LocKind.Constant, LocOffset.U32 0⟩ ⟨LocKind.Constant, LocOffset.U32 0⟩
      [⟨LocKind.Indirect, LocOffset.I32 8⟩] 0 rfl (by decide)⟩

/-- A stack-map record pairing a register-kind base location with an
indirect-kind derived location (constant headers, zero de-opt entries). -/
def regIndirectRec : SMRec :=
  ⟨[⟨LocKind.Constant, LocOffset.U32 0⟩, ⟨LocKind.Constant, LocOffset.U32 0⟩,
    ⟨LocKind.Constant, LocOffset.U32 0⟩,
    ⟨LocKind.Register, LocOffset.I32 0⟩, ⟨LocKind.Indirect, LocOffset.I32 8⟩]⟩

/-- C5 counterexample: a mixed register/indirect pair — a combination
that is neither register/register nor indirect/indirect — does NOT make
decoding fail loudly: the decoder dispatches on the base's kind alone, so
the pair is silently skipped and decoding completes with no root added,
contradicting the claim that every such combination is fatal. -/
theorem mixed_pair_not_fatal :
    gen_safepoint_roots regIndirectRec =
      Except.ok { registers := [], stack_offsets := [] } := by
  rfl

/-- C5 amended: the pair dispatch looks only at the BASE location's kind:
a register-kind base is logged and skipped whatever the derived kind; an
indirect base with a non-indirect derived partner fails fatally; a base
of any other kind (direct, constant, constant-index) is logged and
skipped without error. -/
theorem pair_kind_dispatch :
    (∀ (base derived : Loc) (rest : List Loc),
      base.kind = LocKind.Register →
      procPairs (base :: derived :: rest) = procPairs rest) ∧
    (∀ (base derived : Loc) (rest : List Loc),
      base.kind = LocKind.Indirect → derived.kind ≠ LocKind.Indirect →
      procPairs (base :: derived :: rest) = Except.error "not implemented") ∧
    (∀ (base derived : Loc) (rest : List Loc),
      base.kind ≠ LocKind.Register → base.kind ≠ LocKind.Indirect →
      procPairs (base :: derived :: rest) = procPairs rest) := by
  refine ⟨fun base derived rest h => ?_, fun base derived rest h hd => ?_,
          fun base derived rest h1 h2 => ?_⟩
  · simp [procPairs, h]
  · cases hk : derived.kind <;> simp_all [procPairs]
  · cases hb : base.kind <;> simp_all [procPairs]

/-- Witness for C5's amended theorem: the three dispatch outcomes at
concrete locations — register base with indirect partner (skipped),
indirect base with register partner (fatal), and direct base with
indirect partner (skipped). -/
theorem pair_kind_dispatch_witness :
    procPairs [⟨LocKind.Register, LocOffset.I32 0⟩,
        ⟨LocKind.Indirect, LocOffset.I32 8⟩] = procPairs [] ∧
    procPairs [⟨LocKind.Indirect, LocOffset.I32 8⟩,
        ⟨LocKind.Register, LocOffset.I32 0⟩] =
      Except.error "not implemented" ∧
    procPairs [⟨LocKind.Direct, LocOffset.I32 4⟩,
        ⟨LocKind.Indirect, LocOffset.I32 8⟩] = procPairs [] :=
  ⟨pair_kind_dispatch.1 _ _ [] rfl,
   pair_kind_dispatch.2.1 _ _ [] rfl (by decide),
   pair_kind_dispatch.2.2 _ _ [] (by decide) (by decide)⟩

end Rgcrt

namespace Rgcrt

/-- A stack-map record decoding to a single base-pointer root slot. -/
def recWithRoot : SMRec :=
  ⟨[⟨LocKind.Constant, LocOffset.U32 0⟩, ⟨LocKind.Constant, LocOffset.U32 0⟩,
    ⟨LocKind.Constant, LocOffset.U32 0⟩,
    ⟨LocKind.Indirect, LocOffset.I32 8⟩, ⟨LocKind.Indirect, LocOffset.I32 8⟩]⟩

/-- A stack-map record decoding to no root slots at all. -/
def recNoRoot : SMRec :=
  ⟨[⟨LocKind.Constant, LocOffset.U32 0⟩, ⟨LocKind.Constant, LocOffset.U32 0⟩,
    ⟨LocKind.Constant, LocOffset.U32 0⟩]⟩

/-- C4 counterexample: one function at address 100 with TWO instrumented
safepoints — the first decoding to a `Base` slot, the second to no slots.
Every record of a function is inserted under the one key
`ReturnAddress(func.addr())`, so the two safepoints collapse into a
single table entry holding only the LAST record's roots: the table does
NOT contain one entry per safepoint keyed by its own return address, and
the first safepoint's root information is lost. -/
theorem table_collapses_safepoints :
    gen_safepoint_table [⟨100, 2⟩] [recWithRoot, recNoRoot] =
      Except.ok [(100, { registers := [], stack_offsets := [] })] := by
  rfl

theorem hmContains_hmInsert (k : Nat) (v : SafepointRoots)
    (m : List (Nat × SafepointRoots)) :
    hmContains k (hmInsert k v m) = true := by
  induction m with
  | nil => simp [hmInsert, hmContains]
  | cons kv rest ih =>
    obtain ⟨k', v'⟩ := kv
    by_cases h : k = k'
    · simp [hmInsert, hmContains, h]
    · simp [hmInsert, hmContains, h, ih]

theorem hmInsert_length_contains (k : Nat) (v : SafepointRoots)
    (m : List (Nat × SafepointRoots)) (h : hmContains k m = true) :
    (hmInsert k v m).length = m.length := by
  induction m with
  | nil => simp [hmContains] at h
  | cons kv rest ih =>
    obtain ⟨k', v'⟩ := kv
    by_cases hk : k = k'
    · simp [hmInsert, hk]
    · have : hmContains k rest = true := by
        simpa [hmContains, hk] using h
      simp [hmInsert, hk, ih this]

theorem hmInsert_length_not_contains (k : Nat) (v : SafepointRoots)
    (m : List (Nat × SafepointRoots)) (h : hmContains k m = false) :
    (hmInsert k v m).length = m.length + 1 := by
  induction m with
  | nil => simp [hmInsert]
  | cons kv rest ih =>
    obtain ⟨k', v'⟩ := kv
    by_cases hk : k = k'
    · simp [hmContains, hk] at h
    · have : hmContains k rest = false := by
        simpa [hmContains, hk] using h
      simp [hmInsert, hk, ih this]

theorem insertRecords_length (addr : Nat) (recs : List SMRec) :
    ∀ (m out : List (Nat × SafepointRoots)),
      insertRecords addr recs m = Except.ok out →
      out.length ≤ m.length + 1 ∧
      (hmContains addr m = true → out.length ≤ m.length) := by
  induction recs with
  | nil =>
    intro m out h
    cases h
    exact ⟨Nat.le_succ _, fun _ => Nat.le_refl _⟩
  | cons r rs ih =>
    intro m out h
    unfold insertRecords at h
    cases hr : gen_safepoint_roots r with
    | error e => rw [hr] at h; cases h
    | ok roots =>
      rw [hr] at h
      have hcont := hmContains_hmInsert addr roots m
      have hboth := ih (hmInsert addr roots m) out h
      have hle := hboth.2 hcont
      rcases Bool.eq_false_or_eq_true (hmContains addr m) with hc | hc
      · have hlen := hmInsert_length_contains addr roots m hc
        exact ⟨by omega, fun _ => by omega⟩
      · have hlen := hmInsert_length_not_contains addr roots m hc
        refine ⟨by omega, fun hcm => ?_⟩
        rw [hcm] at hc; cases hc

theorem genTableGo_length (funcs : List StackMapFunc) :
    ∀ (sms : List SMRec) (m out : List (Nat × SafepointRoots)),
      genTableGo funcs sms m = Except.ok out →
      out.length ≤ m.length + funcs.length := by
  induction funcs with
  | nil =>
    intro sms m out h
    cases h
    simp
  | cons f fs ih =>
    intro sms m out h
    unfold genTableGo at h
    cases hi : insertRecords f.addr (sms.take f.record_count) m with
    | error e => rw [hi] at h; cases h
    | ok m1 =>
      rw [hi] at h
      have h1 := (insertRecords_length f.addr (sms.take f.record_count) m m1 hi).1
      have h2 := ih (sms.drop f.record_count) m1 out h
      simp only [List.length_cons]
      omega

/-- C4 amended: the safepoint table is keyed by the FUNCTION address —
every record of a function is inserted under the same key — so for an
image with N functions the table has at most N return-address keys
(fewer when functions have zero safepoints, or when a function's several
safepoints collapse into its one key, keeping only the last record's
roots). -/
theorem table_keys_at_most (funcs : List StackMapFunc) (sms : List SMRec)
    (t : List (Nat × SafepointRoots))
    (h : gen_safepoint_table funcs sms = Except.ok t) :
    t.length ≤ funcs.length := by
  simpa using genTableGo_length funcs sms [] t h

/-- Witness for C4's amended theorem: two functions, three records in the
stream — the resulting table has 2 entries, at most the function count. -/
theorem table_keys_at_most_witness :
    gen_safepoint_table [⟨100, 2⟩, ⟨200, 1⟩] [recWithRoot, recNoRoot, recNoRoot] =
      Except.ok [(100, { registers := [], stack_offsets := [] }),
                 (200, { registers := [], stack_offsets := [] })] ∧
    ([(100, { registers := [], stack_offsets := [] }),
      (200, { registers := [], stack_offsets := [] })] :
        List (Nat × SafepointRoots)).length ≤
      ([⟨100, 2⟩, ⟨200, 1⟩] : List StackMapFunc).length :=
  ⟨rfl, table_keys_at_most [⟨100, 2⟩, ⟨200, 1⟩]
      [recWithRoot, recNoRoot, recNoRoot] _ rfl⟩

end Rgcrt
